import Mathlib

/-!
Shallow embedding of the analytical core of the smart-home backend
(`DB.py`): the interval-overlap analysis over device-usage records and
the grouped aggregation queries (time-slot frequency, area bucketing,
security-event statistics, failure rates, feedback sentiment, user
activity).

Timestamps are modelled as natural numbers counting minutes on a total
order (the stored `TIMESTAMP` strings are uniformly formatted, so their
lexicographic order used by the SQL comparisons coincides with
chronological order); `strftime` hour extraction becomes `t / 60 % 24`.
SQL `REAL` columns and the `ROUND(x, 2)` results are modelled as `ℚ`.
Each SQL query is translated operation by operation: `JOIN` becomes
`bind`/`filter`, `GROUP BY` becomes `dedup` of the key list plus a
per-key `count`, `HAVING`/`LIMIT`/`ORDER BY` become `filter`/`take`/
`mergeSort`.
-/

namespace SmartHome

/-- Row of the `users` table (columns relevant to the analytics). -/
structure User where
  id : Int
  name : String
  deriving DecidableEq

/-- Row of the `houses` table. -/
structure House where
  id : Int
  user_id : Int
  area : ℚ
  deriving DecidableEq

/-- Row of the `devices` table. -/
structure Device where
  id : Int
  house_id : Int
  name : String
  type : String
  deriving DecidableEq

/-- Row of the `device_usage` table; times are minutes on a total order. -/
structure Usage where
  id : Int
  device_id : Int
  start_time : Nat
  end_time : Nat
  deriving DecidableEq

/-- Row of the `security_events` table. -/
structure SecurityEvent where
  id : Int
  device_id : Int
  event_type : String
  deriving DecidableEq

/-- Row of the `feedback` table. -/
structure Feedback where
  id : Int
  user_id : Int
  rating : Int
  deriving DecidableEq

/-- SQLite `ROUND(q, 2)`: round to two decimal places. -/
def round2 (q : ℚ) : ℚ := (round (q * 100) : ℤ) / 100

/-- Hour of day of a timestamp given in minutes, as computed by
`CAST(strftime('%H', t) AS INTEGER)`. -/
def hourOf (t : Nat) : Nat := t / 60 % 24

/-- The `CASE` expression of `get_device_usage_frequency`: SQL `BETWEEN`
is inclusive at both ends and the first matching branch wins. -/
def timeSlot (h : Nat) : String :=
  if 6 ≤ h ∧ h ≤ 12 then "Morning (6-12)"
  else if 12 ≤ h ∧ h ≤ 18 then "Afternoon (12-18)"
  else if 18 ≤ h ∧ h ≤ 24 then "Evening (18-24)"
  else "Night (0-6)"

/-- Slot assigned to a usage interval: bucket by hour of its start time. -/
def usageSlot (u : Usage) : String := timeSlot (hourOf u.start_time)

/-- Result row of `/analysis/device-usage-frequency/`. -/
structure FrequencyRow where
  device_id : Int
  frequency : Nat
  time_slot : String
  deriving DecidableEq

/-- Key list of `get_device_usage_frequency`: one `(device id, slot)` key
per usage row joined to its device. -/
def frequencyKeyList (ds : List Device) (us : List Usage) : List (Int × String) :=
  us.flatMap fun du =>
    (ds.filter fun d => decide (d.id = du.device_id)).map fun d => (d.id, usageSlot du)

/-- The `get_device_usage_frequency` query: `GROUP BY d.id, time_slot`,
`COUNT(*)`, `ORDER BY frequency DESC`. -/
def get_device_usage_frequency (ds : List Device) (us : List Usage) : List FrequencyRow :=
  let keys := (frequencyKeyList ds us).dedup
  let grouped := keys.map fun k =>
    FrequencyRow.mk k.1 ((frequencyKeyList ds us).count k) k.2
  grouped.mergeSort fun a b => decide (b.frequency ≤ a.frequency)

/-- The `CASE` expression of `get_area_usage_impact`: branches tested in
order `area < 50`, `area BETWEEN 50 AND 100`, `area BETWEEN 100 AND 150`,
else `150+`; `BETWEEN` is inclusive at both ends. -/
def areaRange (area : ℚ) : String :=
  if area < 50 then "0-50"
  else if 50 ≤ area ∧ area ≤ 100 then "50-100"
  else if 100 ≤ area ∧ area ≤ 150 then "100-150"
  else "150+"

/-- Result row of `/analysis/area-usage-impact/`. -/
structure AreaImpactRow where
  area_range : String
  device_type : String
  avg_duration : ℚ
  usage_count : Nat
  deriving DecidableEq

/-- Join of `device_usage` with `devices` and `houses`, keyed by
`(area_range, device_type)` and carrying the interval duration in
minutes (`(JULIANDAY(end) - JULIANDAY(start)) * 1440`). -/
def areaJoinList (hs : List House) (ds : List Device) (us : List Usage) :
    List ((String × String) × ℚ) :=
  us.flatMap fun du =>
    (ds.filter fun d => decide (d.id = du.device_id)).flatMap fun d =>
      (hs.filter fun h => decide (h.id = d.house_id)).map fun h =>
        ((areaRange h.area, d.type), (du.end_time : ℚ) - (du.start_time : ℚ))

/-- The `get_area_usage_impact` query: `GROUP BY area_range, device_type`
with `AVG` duration and `COUNT(*)` (the final `ORDER BY` only permutes
rows and is omitted; no claim concerns it). -/
def get_area_usage_impact (hs : List House) (ds : List Device) (us : List Usage) :
    List AreaImpactRow :=
  let rows := areaJoinList hs ds us
  ((rows.map fun r => r.1).dedup).map fun k =>
    let krows := rows.filter fun r => decide (r.1 = k)
    AreaImpactRow.mk k.1 k.2 ((krows.map fun r => r.2).sum / (krows.length : ℚ))
      krows.length

/-- Self-join of `device_usage` in the concurrent-device queries: pairs
`(du1, du2)` with `du1.device_id < du2.device_id`,
`du1.start_time <= du2.end_time` and `du1.end_time >= du2.start_time`. -/
def concurrentJoin (us : List Usage) : List (Usage × Usage) :=
  us.flatMap fun du1 =>
    (us.filter fun du2 =>
      decide (du1.device_id < du2.device_id) &&
      decide (du1.start_time ≤ du2.end_time) &&
      decide (du1.end_time ≥ du2.start_time)).map fun du2 => (du1, du2)

/-- Group-key list of `get_concurrent_devices` after the joins to
`devices d1, d2`: one `(d1.id, d2.id)` key per fully joined row. -/
def fullKeyList (ds : List Device) (us : List Usage) : List (Int × Int) :=
  (concurrentJoin us).flatMap fun p =>
    (ds.filter fun d1 => decide (d1.id = p.1.device_id)).flatMap fun _ =>
      (ds.filter fun d2 => decide (d2.id = p.2.device_id)).map fun _ =>
        (p.1.device_id, p.2.device_id)

/-- Group-key list of `get_concurrent_device_usage` after the joins to
`devices d1, d2`: one `(d1.name, d2.name)` key per fully joined row. -/
def nameKeyList (ds : List Device) (us : List Usage) : List (String × String) :=
  (concurrentJoin us).flatMap fun p =>
    (ds.filter fun d1 => decide (d1.id = p.1.device_id)).flatMap fun d1 =>
      (ds.filter fun d2 => decide (d2.id = p.2.device_id)).map fun d2 =>
        (d1.name, d2.name)

/-- Name of the device with a given id (the bare `d.name` column picked
for a group keyed by `d.id`). -/
def nameOf (ds : List Device) (i : Int) : String :=
  ((ds.find? fun d => decide (d.id = i)).map Device.name).getD ""

/-- Result row of `/analysis/concurrent-devices/`. -/
structure ConcurrentRow where
  device1_id : Int
  device1_name : String
  device2_id : Int
  device2_name : String
  concurrent_count : Nat
  deriving DecidableEq

/-- The `get_concurrent_devices` query: group the self-join by
`(d1.id, d2.id)`, `HAVING concurrent_count > 2`,
`ORDER BY concurrent_count DESC`, `LIMIT 10`. -/
def get_concurrent_devices (ds : List Device) (us : List Usage) : List ConcurrentRow :=
  let keys := (fullKeyList ds us).dedup
  let grouped := keys.map fun k =>
    ConcurrentRow.mk k.1 (nameOf ds k.1) k.2 (nameOf ds k.2)
      ((fullKeyList ds us).count k)
  let filtered := grouped.filter fun r => decide (r.concurrent_count > 2)
  (filtered.mergeSort fun a b => decide (b.concurrent_count ≤ a.concurrent_count)).take 10

/-- Result row of `/analysis/concurrent-device-usage/`. -/
structure UsagePairRow where
  device1 : String
  device2 : String
  concurrent_count : Nat
  deriving DecidableEq

/-- The `get_concurrent_device_usage` query: the same self-join grouped
by `(d1.name, d2.name)`, `HAVING concurrent_count > 5`,
`ORDER BY concurrent_count DESC`, `LIMIT 10`. -/
def get_concurrent_device_usage (ds : List Device) (us : List Usage) : List UsagePairRow :=
  let keys := (nameKeyList ds us).dedup
  let grouped := keys.map fun k =>
    UsagePairRow.mk k.1 k.2 ((nameKeyList ds us).count k)
  let filtered := grouped.filter fun r => decide (r.concurrent_count > 5)
  (filtered.mergeSort fun a b => decide (b.concurrent_count ≤ a.concurrent_count)).take 10

/-- Result row of `/analysis/security-event-stats/`. -/
structure EventStatsRow where
  event_type : String
  count : Nat
  percentage : ℚ
  deriving DecidableEq

/-- The `get_security_event_stats` query: `GROUP BY event_type` with
`COUNT(*)` and `ROUND(COUNT(*) * 100.0 / total, 2)`,
`ORDER BY count DESC`. -/
def get_security_event_stats (es : List SecurityEvent) : List EventStatsRow :=
  let keyList := es.map fun e => e.event_type
  let grouped := keyList.dedup.map fun t =>
    EventStatsRow.mk t (keyList.count t)
      (round2 ((keyList.count t : ℚ) * 100 / (es.length : ℚ)))
  grouped.mergeSort fun a b => decide (b.count ≤ a.count)

/-- The `CASE` expression of `get_feedback_sentiment`. -/
def sentiment (rating : Int) : String :=
  if rating ≥ 4 then "Positive"
  else if rating = 3 then "Neutral"
  else "Negative"

/-- Result row of `/analysis/feedback-sentiment/`. -/
structure SentimentRow where
  sentiment : String
  count : Nat
  percentage : ℚ
  deriving DecidableEq

/-- The `get_feedback_sentiment` query: bucket by sentiment, count and
`ROUND(COUNT(*) * 100.0 / total, 2)`, `ORDER BY count DESC`. -/
def get_feedback_sentiment (fs : List Feedback) : List SentimentRow :=
  let keyList := fs.map fun f => sentiment f.rating
  let grouped := keyList.dedup.map fun s =>
    SentimentRow.mk s (keyList.count s)
      (round2 ((keyList.count s : ℚ) * 100 / (fs.length : ℚ)))
  grouped.mergeSort fun a b => decide (b.count ≤ a.count)

/-- Number of security events attached to a device (`COUNT(se.id)`
contribution of one device row under the `LEFT JOIN`). -/
def deviceEvents (es : List SecurityEvent) (d : Device) : Nat :=
  (es.filter fun e => decide (e.device_id = d.id)).length

/-- Result row of `/analysis/device-failure-rate/`. -/
structure FailureRateRow where
  device_type : String
  total_devices : Nat
  failure_events : Nat
  failure_rate_percent : ℚ
  deriving DecidableEq

/-- The `get_device_failure_rate` query: `devices LEFT JOIN
security_events`, `GROUP BY d.type`, with `COUNT(DISTINCT d.id)`,
`COUNT(se.id)` and `ROUND(COUNT(se.id) * 100.0 / COUNT(DISTINCT d.id), 2)`,
`ORDER BY failure_rate_percent DESC`. -/
def get_device_failure_rate (ds : List Device) (es : List SecurityEvent) :
    List FailureRateRow :=
  let grouped := ((ds.map fun d => d.type).dedup).map fun t =>
    let dsT := ds.filter fun d => decide (d.type = t)
    let failures := (dsT.map fun d => deviceEvents es d).sum
    let totalDevices := ((dsT.map fun d => d.id).dedup).length
    FailureRateRow.mk t totalDevices failures
      (round2 ((failures : ℚ) * 100 / (totalDevices : ℚ)))
  grouped.mergeSort fun a b => decide (b.failure_rate_percent ≤ a.failure_rate_percent)

/-- Devices owned by a user through their houses
(`houses JOIN devices` restricted to the user). -/
def userDevices (hs : List House) (ds : List Device) (u : User) : List Device :=
  (hs.filter fun h => decide (h.user_id = u.id)).flatMap fun h =>
    ds.filter fun d => decide (d.house_id = h.id)

/-- Inner-join rows of `get_user_activity` before the `LEFT JOIN`:
`users JOIN houses JOIN devices`, one `(user, device)` row each. -/
def activityRowList (users : List User) (hs : List House) (ds : List Device) :
    List (User × Device) :=
  users.flatMap fun u => (userDevices hs ds u).map fun d => (u, d)

/-- Total number of usage intervals across all devices a user owns. -/
def userUsageCount (hs : List House) (ds : List Device) (us : List Usage)
    (u : User) : Nat :=
  ((userDevices hs ds u).map fun d =>
    (us.filter fun du => decide (du.device_id = d.id)).length).sum

/-- Result row of `/analysis/user-activity/`. -/
structure ActivityRow where
  user_id : Int
  user_name : String
  usage_count : Nat
  device_types_used : Nat
  deriving DecidableEq

/-- The `get_user_activity` query: inner joins `users JOIN houses JOIN
devices`, `LEFT JOIN device_usage`, `GROUP BY u.id` with `COUNT(du.id)`
and `COUNT(DISTINCT d.type)`, `ORDER BY usage_count DESC`. -/
def get_user_activity (users : List User) (hs : List House) (ds : List Device)
    (us : List Usage) : List ActivityRow :=
  let rows := activityRowList users hs ds
  let grouped := ((rows.map fun r => r.1.id).dedup).map fun k =>
    let krows := rows.filter fun r => decide (r.1.id = k)
    ActivityRow.mk k
      (((rows.find? fun r => decide (r.1.id = k)).map fun r => r.1.name).getD "")
      ((krows.map fun r =>
        (us.filter fun du => decide (du.device_id = r.2.id)).length).sum)
      ((krows.map fun r => r.2.type).dedup.length)
  grouped.mergeSort fun a b => decide (b.usage_count ≤ a.usage_count)

/-! Helper lemmas about counting in mapped and flat-mapped lists. -/

theorem count_map_mk {α β : Type} [DecidableEq α] [DecidableEq β]
    (l : List β) (x a : α) (b : β) :
    ((l.map (Prod.mk x)).count (a, b)) = if x = a then l.count b else 0 := by
  rw [List.count, List.countP_map]
  by_cases hx : x = a
  · subst hx
    rw [if_pos rfl, List.count]
    refine List.countP_congr fun y hy => ?_
    simp [Function.comp, Prod.ext_iff]
  · rw [if_neg hx]
    refine List.countP_eq_zero.2 fun y hy => ?_
    simp [Function.comp, Prod.ext_iff, hx]

theorem count_flatMap_mk {α β : Type} [DecidableEq α] [DecidableEq β]
    (outer : List α) (inner : α → List β) (a : α) (b : β) :
    ((outer.flatMap fun x => (inner x).map (Prod.mk x)).count (a, b)) =
      outer.count a * (inner a).count b := by
  induction outer with
  | nil => simp
  | cons x xs ih =>
    rw [List.flatMap_cons, List.count_append, ih, count_map_mk, List.count_cons]
    by_cases hx : x = a
    · subst hx; simp; ring
    · simp [hx]

/-- C1: for devices `A.id < B.id`, an interval pair `(ia, ib)` contributes to
the concurrent count exactly when `ia.start <= ib.end` and `ia.end >= ib.start`
(closed intervals); intervals merely touching at an endpoint
(`ia.end = ib.start`) do count. -/
theorem C1_overlap_pair_count (us : List Usage) (ia ib : Usage)
    (hid : ia.device_id < ib.device_id) :
    ((concurrentJoin us).count (ia, ib) =
      if ia.start_time ≤ ib.end_time ∧ ia.end_time ≥ ib.start_time
      then us.count ia * us.count ib else 0) ∧
    (ia.end_time = ib.start_time → ia.start_time ≤ ia.end_time →
      ib.start_time ≤ ib.end_time → ia ∈ us → ib ∈ us →
      (ia, ib) ∈ concurrentJoin us) := by
  constructor
  · rw [show concurrentJoin us = us.flatMap fun du1 =>
        ((us.filter fun du2 => decide (du1.device_id < du2.device_id) &&
          decide (du1.start_time ≤ du2.end_time) &&
          decide (du1.end_time ≥ du2.start_time)).map (Prod.mk du1)) from rfl,
      count_flatMap_mk]
    by_cases hov : ia.start_time ≤ ib.end_time ∧ ia.end_time ≥ ib.start_time
    · rw [if_pos hov, List.count_filter]
      simp only [Bool.and_eq_true, decide_eq_true_eq]
      exact ⟨⟨hid, hov.1⟩, hov.2⟩
    · rw [if_neg hov]
      have hnm : ib ∉ us.filter fun du2 => decide (ia.device_id < du2.device_id) &&
          decide (ia.start_time ≤ du2.end_time) &&
          decide (ia.end_time ≥ du2.start_time) := by
        intro hmem
        have := (List.mem_filter.1 hmem).2
        simp only [Bool.and_eq_true, decide_eq_true_eq] at this
        exact hov ⟨this.1.2, this.2⟩
      rw [List.count_eq_zero_of_not_mem hnm, Nat.mul_zero]
  · intro he h1 h2 hia hib
    refine List.mem_flatMap.2 ⟨ia, hia, List.mem_map.2 ⟨ib, List.mem_filter.2 ⟨hib, ?_⟩, rfl⟩⟩
    simp only [Bool.and_eq_true, decide_eq_true_eq]
    refine ⟨⟨hid, ?_⟩, ?_⟩ <;> omega

theorem C1_overlap_pair_count_witness :
    (concurrentJoin [Usage.mk 1 1 0 10, Usage.mk 2 2 10 20]).count
      (Usage.mk 1 1 0 10, Usage.mk 2 2 10 20) = 1 := by
  have h := (C1_overlap_pair_count [Usage.mk 1 1 0 10, Usage.mk 2 2 10 20]
    (Usage.mk 1 1 0 10) (Usage.mk 2 2 10 20) (by decide)).1
  rw [if_pos (by decide)] at h
  rw [h]; decide

/-- C2 fails as stated: an interval starting at 12:00 (720 minutes) is
assigned the Morning slot, not the Afternoon slot, because the SQL
`BETWEEN 6 AND 12` test is inclusive at 12 and is evaluated first. -/
theorem C2_counterexample :
    usageSlot (Usage.mk 0 0 720 780) = "Morning (6-12)" ∧
    usageSlot (Usage.mk 0 0 720 780) ≠ "Afternoon (12-18)" := by
  constructor <;> decide

/-- C2 amended: slots are assigned by hour of the start time with inclusive
`BETWEEN` bounds and first match winning, so Morning covers hours 6..12,
Afternoon 13..18, Evening 19..23 and Night 0..5; a 05:59 start is Night, a
06:00 start is Morning, a 23:59 start is Evening (12:00 is Morning and
18:00 is Afternoon, not as the claim stated). -/
theorem C2_time_slot_boundaries (u : Usage) :
    (usageSlot u = "Morning (6-12)" ↔
      6 ≤ hourOf u.start_time ∧ hourOf u.start_time ≤ 12) ∧
    (usageSlot u = "Afternoon (12-18)" ↔
      13 ≤ hourOf u.start_time ∧ hourOf u.start_time ≤ 18) ∧
    (usageSlot u = "Evening (18-24)" ↔ 19 ≤ hourOf u.start_time) ∧
    (usageSlot u = "Night (0-6)" ↔ hourOf u.start_time ≤ 5) ∧
    usageSlot (Usage.mk 0 0 359 360) = "Night (0-6)" ∧
    usageSlot (Usage.mk 0 0 360 420) = "Morning (6-12)" ∧
    usageSlot (Usage.mk 0 0 1439 1440) = "Evening (18-24)" := by
  have hlt : hourOf u.start_time < 24 := Nat.mod_lt _ (by norm_num)
  simp only [usageSlot]
  generalize hourOf u.start_time = h at hlt
  refine ⟨?_, ?_, ?_, ?_, by decide, by decide, by decide⟩ <;>
    (interval_cases h <;> decide)

/-- C4 fails as stated: a house area of exactly 100 is assigned the
`50-100` bucket, because the inclusive `BETWEEN 50 AND 100` branch is
evaluated before the `BETWEEN 100 AND 150` branch. -/
theorem C4_counterexample : areaRange 100 ≠ "100-150" := by decide

/-- C4 amended: an area of exactly 100 falls into the `50-100` bucket; the
`50-100` test matches before the `100-150` test for that value. -/
theorem C4_area100_bucket :
    areaRange 100 = "50-100" ∧ areaRange 100 ≠ "100-150" := by
  constructor <;> decide

/-- C5: area 50 is bucketed as `50-100` (not `0-50`) and area 150 as
`100-150` (not `150+`). -/
theorem C5_area_boundary_buckets :
    areaRange 50 = "50-100" ∧ areaRange 50 ≠ "0-50" ∧
    areaRange 150 = "100-150" ∧ areaRange 150 ≠ "150+" := by
  refine ⟨by decide, by decide, by decide, by decide⟩

/-! Helper lemmas for the `HAVING` / `ORDER BY ... DESC` / `LIMIT`
pipeline shared by both concurrent-device queries. -/

theorem topRows_gt (l : List α) (f : α → Nat) (t n : Nat) :
    ∀ r ∈ (((l.filter fun r => decide (f r > t)).mergeSort
      fun a b => decide (f b ≤ f a)).take n), f r > t := by
  intro r hr
  have hm := List.mem_mergeSort.1 (List.take_subset n _ hr)
  exact of_decide_eq_true (List.mem_filter.1 hm).2

theorem topRows_sorted (l : List α) (f : α → Nat) (t n : Nat) :
    (((l.filter fun r => decide (f r > t)).mergeSort
      fun a b => decide (f b ≤ f a)).take n).Pairwise
        fun r1 r2 => f r2 ≤ f r1 := by
  have hs : ((l.filter fun r => decide (f r > t)).mergeSort
      fun a b => decide (f b ≤ f a)).Pairwise
        fun r1 r2 => decide (f r2 ≤ f r1) := by
    refine List.sorted_mergeSort ?_ ?_ _
    · intro a b c hab hbc
      simp only [decide_eq_true_eq] at *
      omega
    · intro a b
      simp only [Bool.or_eq_true, decide_eq_true_eq]
      omega
  exact (hs.sublist (List.take_sublist n _)).imp fun h => of_decide_eq_true h

theorem topRows_length (l : List α) (f : α → Nat) (t n : Nat) :
    (((l.filter fun r => decide (f r > t)).mergeSort
      fun a b => decide (f b ≤ f a)).take n).length ≤ n :=
  List.length_take_le n _

/-- C6: every retained concurrent-devices row has count strictly above the
threshold (2 for `get_concurrent_devices`, 5 for
`get_concurrent_device_usage`), rows are in descending count order, and at
most 10 rows are returned. -/
theorem C6_threshold_order_limit (ds : List Device) (us : List Usage) :
    (∀ r ∈ get_concurrent_devices ds us, r.concurrent_count > 2) ∧
    ((get_concurrent_devices ds us).Pairwise
      fun r1 r2 => r2.concurrent_count ≤ r1.concurrent_count) ∧
    (get_concurrent_devices ds us).length ≤ 10 ∧
    (∀ r ∈ get_concurrent_device_usage ds us, r.concurrent_count > 5) ∧
    ((get_concurrent_device_usage ds us).Pairwise
      fun r1 r2 => r2.concurrent_count ≤ r1.concurrent_count) ∧
    (get_concurrent_device_usage ds us).length ≤ 10 :=
  ⟨topRows_gt _ ConcurrentRow.concurrent_count 2 10,
   topRows_sorted _ ConcurrentRow.concurrent_count 2 10,
   topRows_length _ ConcurrentRow.concurrent_count 2 10,
   topRows_gt _ UsagePairRow.concurrent_count 5 10,
   topRows_sorted _ UsagePairRow.concurrent_count 5 10,
   topRows_length _ UsagePairRow.concurrent_count 5 10⟩

theorem mem_concurrentJoin_lt {us : List Usage} {p : Usage × Usage}
    (hp : p ∈ concurrentJoin us) : p.1.device_id < p.2.device_id := by
  rcases List.mem_flatMap.1 hp with ⟨du1, _, hmap⟩
  rcases List.mem_map.1 hmap with ⟨du2, hfil, hpe⟩
  have hc := (List.mem_filter.1 hfil).2
  simp only [Bool.and_eq_true, decide_eq_true_eq] at hc
  rw [← hpe]
  exact hc.1.1

theorem mem_fullKeyList_lt {ds : List Device} {us : List Usage} {k : Int × Int}
    (hk : k ∈ fullKeyList ds us) : k.1 < k.2 := by
  rcases List.mem_flatMap.1 hk with ⟨p, hp, hin⟩
  rcases List.mem_flatMap.1 hin with ⟨d1, _, hmap⟩
  rcases List.mem_map.1 hmap with ⟨d2, _, hke⟩
  rw [← hke]
  exact mem_concurrentJoin_lt hp

/-- C7: every concurrent-devices result row satisfies
`device1_id < device2_id`; hence no self-pair and no mirrored duplicate of
a reported pair occurs. -/
theorem C7_canonical_pair_order (ds : List Device) (us : List Usage) :
    (∀ r ∈ get_concurrent_devices ds us, r.device1_id < r.device2_id) ∧
    (∀ r ∈ get_concurrent_devices ds us, r.device1_id ≠ r.device2_id) ∧
    (∀ r1 ∈ get_concurrent_devices ds us, ∀ r2 ∈ get_concurrent_devices ds us,
      ¬(r1.device1_id = r2.device2_id ∧ r1.device2_id = r2.device1_id)) := by
  have hlt : ∀ r ∈ get_concurrent_devices ds us, r.device1_id < r.device2_id := by
    intro r hr
    have hm := List.mem_mergeSort.1 (List.take_subset 10 _ hr)
    have hg := (List.mem_filter.1 hm).1
    rcases List.mem_map.1 hg with ⟨k, hk, hre⟩
    have := mem_fullKeyList_lt (List.mem_dedup.1 hk)
    rw [← hre]
    exact this
  refine ⟨hlt, fun r hr => Int.ne_of_lt (hlt r hr), fun r1 h1 r2 h2 hm => ?_⟩
  have ha := hlt r1 h1
  have hb := hlt r2 h2
  omega

/-- C8: with zero security events the event-type statistics are empty and
every failure-rate row reports zero failure events and a zero rate; no
division error can occur (all arithmetic is total and the zero numerator
forces a zero rate). -/
theorem C8_empty_security_events (ds : List Device) :
    get_security_event_stats [] = [] ∧
    ∀ r ∈ get_device_failure_rate ds [],
      r.failure_events = 0 ∧ r.failure_rate_percent = 0 := by
  constructor
  · simp [get_security_event_stats, List.mergeSort_nil]
  · intro r hr
    simp only [get_device_failure_rate] at hr
    have hm := List.mem_mergeSort.1 hr
    rcases List.mem_map.1 hm with ⟨t, ht, hre⟩
    have hsum : ((ds.filter fun d => decide (d.type = t)).map
        fun d => deviceEvents ([] : List SecurityEvent) d).sum = 0 :=
      List.sum_eq_zero (by simp [deviceEvents])
    rw [← hre]
    refine ⟨hsum, ?_⟩
    show round2 _ = 0
    rw [hsum]
    simp [round2]

theorem mem_activityRowList {users : List User} {hs : List House}
    {ds : List Device} {r : User × Device}
    (hr : r ∈ activityRowList users hs ds) :
    r.1 ∈ users ∧ r.2 ∈ userDevices hs ds r.1 := by
  rcases List.mem_flatMap.1 hr with ⟨u, hu, hmap⟩
  rcases List.mem_map.1 hmap with ⟨d, hd, hre⟩
  rw [← hre]
  exact ⟨hu, hd⟩

theorem activity_filter_eq (users : List User) (hs : List House)
    (ds : List Device) (u : User) (hu : u ∈ users)
    (hnd : (users.map User.id).Nodup) :
    (activityRowList users hs ds).filter (fun r => decide (r.1.id = u.id)) =
      (userDevices hs ds u).map fun d => (u, d) := by
  induction users with
  | nil => exact absurd hu (List.not_mem_nil u)
  | cons v vs ih =>
    rw [List.map_cons, List.nodup_cons] at hnd
    rw [show activityRowList (v :: vs) hs ds =
        ((userDevices hs ds v).map fun d => (v, d)) ++ activityRowList vs hs ds
      from by simp [activityRowList], List.filter_append]
    rcases List.mem_cons.1 hu with h | h
    · subst h
      have h1 : ((userDevices hs ds u).map fun d => (u, d)).filter
          (fun r => decide (r.1.id = u.id)) =
          (userDevices hs ds u).map fun d => (u, d) := by
        refine List.filter_eq_self.2 fun a ha => ?_
        rcases List.mem_map.1 ha with ⟨d, _, hde⟩
        rw [← hde]
        simp
      have h2 : (activityRowList vs hs ds).filter
          (fun r => decide (r.1.id = u.id)) = [] := by
        refine List.filter_eq_nil_iff.2 fun a ha => ?_
        have := (mem_activityRowList ha).1
        simp only [decide_eq_true_eq]
        intro heq
        exact hnd.1 (heq ▸ List.mem_map_of_mem User.id this)
      rw [h1, h2, List.append_nil]
    · have h1 : ((userDevices hs ds v).map fun d => (v, d)).filter
          (fun r => decide (r.1.id = u.id)) = [] := by
        refine List.filter_eq_nil_iff.2 fun a ha => ?_
        rcases List.mem_map.1 ha with ⟨d, _, hde⟩
        rw [← hde]
        simp only [decide_eq_true_eq]
        intro heq
        exact hnd.1 (heq ▸ List.mem_map_of_mem User.id h)
      rw [h1, ih h hnd.2, List.nil_append]

/-- C3 fails as stated: a user owning no house (hence no device) is absent
from the user-activity result because `users` is inner-joined to `houses`
and `devices`; only the join to `device_usage` is a `LEFT JOIN`. -/
theorem C3_counterexample :
    get_user_activity [User.mk 1 "u"] [] [] [] = [] ∧
    ¬∃ r ∈ get_user_activity [User.mk 1 "u"] [] [] [], r.user_id = 1 := by
  have h : get_user_activity [User.mk 1 "u"] [] [] [] = [] := by
    simp [get_user_activity, activityRowList, userDevices, List.mergeSort_nil]
  exact ⟨h, by simp [h]⟩

/-- C3 amended: a user appears in the user-activity result exactly when
they own at least one device through a house; for such a user the row
reports the total number of usage intervals across all owned devices (0
when the devices were never used), while users with no houses or no
devices are absent. -/
theorem C3_user_activity_rows (users : List User) (hs : List House)
    (ds : List Device) (us : List Usage) (u : User) (hu : u ∈ users)
    (hnd : (users.map User.id).Nodup) :
    (userDevices hs ds u = [] →
      ∀ r ∈ get_user_activity users hs ds us, r.user_id ≠ u.id) ∧
    (userDevices hs ds u ≠ [] →
      ∃ r ∈ get_user_activity users hs ds us,
        r.user_id = u.id ∧ r.usage_count = userUsageCount hs ds us u) := by
  constructor
  · intro hdev r hr heq
    simp only [get_user_activity] at hr
    have hm := List.mem_mergeSort.1 hr
    rcases List.mem_map.1 hm with ⟨k, hk, hre⟩
    have hid : r.user_id = k := by rw [← hre]
    rcases List.mem_map.1 (List.mem_dedup.1 hk) with ⟨row, hrow, hke⟩
    have hmem := mem_activityRowList hrow
    have hrowu : row.1 = u := by
      refine List.inj_on_of_nodup_map hnd hmem.1 hu ?_
      rw [hke, ← hid, heq]
    rw [hrowu, hdev] at hmem
    exact absurd hmem.2 (List.not_mem_nil row.2)
  · intro hdev
    rcases List.exists_mem_of_ne_nil _ hdev with ⟨d, hd⟩
    have hrow : (u, d) ∈ activityRowList users hs ds :=
      List.mem_flatMap.2 ⟨u, hu, List.mem_map.2 ⟨d, hd, rfl⟩⟩
    have hk : u.id ∈ ((activityRowList users hs ds).map fun r => r.1.id).dedup :=
      List.mem_dedup.2 (List.mem_map.2 ⟨(u, d), hrow, rfl⟩)
    simp only [get_user_activity]
    refine ⟨_, List.mem_mergeSort.2 (List.mem_map.2 ⟨u.id, hk, rfl⟩), rfl, ?_⟩
    show ((((activityRowList users hs ds).filter
        fun r => decide (r.1.id = u.id)).map fun r =>
        (us.filter fun du => decide (du.device_id = r.2.id)).length).sum) = _
    rw [activity_filter_eq users hs ds u hu hnd, List.map_map]
    rfl

/-! Helper lemmas for the percentage-sum bound (C9). -/

theorem round2_abs_le (q : ℚ) : |round2 q - q| ≤ 1 / 200 := by
  have h := abs_sub_round (q * 100)
  have heq : round2 q - q = (((round (q * 100) : ℤ) : ℚ) - q * 100) / 100 := by
    unfold round2; ring
  rw [heq, abs_div, abs_sub_comm]
  have h100 : |(100 : ℚ)| = 100 := by norm_num
  rw [h100]
  linarith

theorem abs_list_sum_le (l : List ℚ) : |l.sum| ≤ (l.map fun x => |x|).sum := by
  induction l with
  | nil => simp
  | cons x xs ih =>
    simp only [List.sum_cons, List.map_cons]
    calc |x + xs.sum| ≤ |x| + |xs.sum| := abs_add _ _
      _ ≤ |x| + (xs.map fun x => |x|).sum := by linarith

theorem sum_map_sub {α : Type} (l : List α) (f g : α → ℚ) :
    (l.map fun x => f x - g x).sum = (l.map f).sum - (l.map g).sum := by
  induction l with
  | nil => simp
  | cons x xs ih => simp only [List.map_cons, List.sum_cons, ih]; ring

theorem sum_map_mul_const {α : Type} (l : List α) (f : α → ℚ) (c : ℚ) :
    (l.map fun x => f x * c).sum = (l.map f).sum * c := by
  induction l with
  | nil => simp
  | cons x xs ih => simp only [List.map_cons, List.sum_cons, ih]; ring

theorem sum_map_le_length_mul {α : Type} (l : List α) (f : α → ℚ) (c : ℚ)
    (h : ∀ x ∈ l, f x ≤ c) : (l.map f).sum ≤ (l.length : ℚ) * c := by
  induction l with
  | nil => simp
  | cons x xs ih =>
    simp only [List.map_cons, List.sum_cons, List.length_cons, Nat.cast_add,
      Nat.cast_one]
    have hx := h x (List.mem_cons_self x xs)
    have hxs := ih fun y hy => h y (List.mem_cons_of_mem x hy)
    nlinarith

theorem groupPercent_sum_bound (keyList : List String) (n : ℕ)
    (hn : n = keyList.length) (hne : keyList ≠ []) :
    |((keyList.dedup.map fun t =>
        round2 ((keyList.count t : ℚ) * 100 / (n : ℚ))).sum) - 100| ≤
      (keyList.dedup.length : ℚ) * (1 / 100) := by
  have hpos : 0 < keyList.length := List.length_pos_of_ne_nil hne
  have hn0 : (n : ℚ) ≠ 0 := by
    rw [hn]
    exact_mod_cast hpos.ne'
  have hcount : ((keyList.dedup.map fun t => ((keyList.count t : ℕ) : ℚ)).sum) = (n : ℚ) := by
    have h := List.sum_map_count_dedup_eq_length keyList
    have h2 : (((keyList.dedup.map fun t => keyList.count t).sum : ℕ) : ℚ) =
        ((keyList.length : ℕ) : ℚ) := by exact_mod_cast h
    rw [Nat.cast_list_sum, List.map_map] at h2
    rw [hn]
    exact h2
  have hexact : ((keyList.dedup.map fun t =>
      (keyList.count t : ℚ) * 100 / (n : ℚ)).sum) = 100 := by
    have hrw : (keyList.dedup.map fun t => (keyList.count t : ℚ) * 100 / (n : ℚ)) =
        keyList.dedup.map fun t => ((keyList.count t : ℕ) : ℚ) * (100 / (n : ℚ)) := by
      refine List.map_congr_left fun t _ => ?_
      ring
    rw [hrw, sum_map_mul_const, hcount]
    field_simp
  have hdiff : ((keyList.dedup.map fun t =>
      round2 ((keyList.count t : ℚ) * 100 / (n : ℚ))).sum) - 100 =
      ((keyList.dedup.map fun t =>
        round2 ((keyList.count t : ℚ) * 100 / (n : ℚ)) -
          (keyList.count t : ℚ) * 100 / (n : ℚ)).sum) := by
    rw [sum_map_sub, hexact]
  rw [hdiff]
  calc |(keyList.dedup.map fun t =>
        round2 ((keyList.count t : ℚ) * 100 / (n : ℚ)) -
          (keyList.count t : ℚ) * 100 / (n : ℚ)).sum|
      ≤ ((keyList.dedup.map fun t =>
        round2 ((keyList.count t : ℚ) * 100 / (n : ℚ)) -
          (keyList.count t : ℚ) * 100 / (n : ℚ)).map fun x => |x|).sum :=
        abs_list_sum_le _
    _ = (keyList.dedup.map fun t =>
        |round2 ((keyList.count t : ℚ) * 100 / (n : ℚ)) -
          (keyList.count t : ℚ) * 100 / (n : ℚ)|).sum := by
        rw [List.map_map]; rfl
    _ ≤ (keyList.dedup.length : ℚ) * (1 / 200) :=
        sum_map_le_length_mul _ _ _ fun t _ => round2_abs_le _
    _ ≤ (keyList.dedup.length : ℚ) * (1 / 100) := by
        have : (0 : ℚ) ≤ (keyList.dedup.length : ℚ) := Nat.cast_nonneg _
        nlinarith

/-- C9: over a non-empty base table, the rounded percentage column of the
security-event-type distribution and of the feedback sentiment distribution
sums to 100 within 0.01 times the number of returned groups. -/
theorem C9_percentage_sum (es : List SecurityEvent) (fs : List Feedback) :
    (es ≠ [] →
      |((get_security_event_stats es).map fun r => r.percentage).sum - 100| ≤
        ((get_security_event_stats es).length : ℚ) * (1 / 100)) ∧
    (fs ≠ [] →
      |((get_feedback_sentiment fs).map fun r => r.percentage).sum - 100| ≤
        ((get_feedback_sentiment fs).length : ℚ) * (1 / 100)) := by
  constructor
  · intro hne
    have hkey : (es.map fun e => e.event_type) ≠ [] := by
      simpa [List.map_eq_nil_iff] using hne
    have hperm : (get_security_event_stats es).Perm
        (((es.map fun e => e.event_type).dedup).map fun t =>
          EventStatsRow.mk t ((es.map fun e => e.event_type).count t)
            (round2 (((es.map fun e => e.event_type).count t : ℚ) * 100 /
              (es.length : ℚ)))) := List.mergeSort_perm _ _
    rw [(hperm.map fun r => r.percentage).sum_eq, hperm.length_eq,
      List.length_map, List.map_map]
    have := groupPercent_sum_bound (es.map fun e => e.event_type) es.length
      (List.length_map es _).symm hkey
    simpa using this
  · intro hne
    have hkey : (fs.map fun f => sentiment f.rating) ≠ [] := by
      simpa [List.map_eq_nil_iff] using hne
    have hperm : (get_feedback_sentiment fs).Perm
        (((fs.map fun f => sentiment f.rating).dedup).map fun s =>
          SentimentRow.mk s ((fs.map fun f => sentiment f.rating).count s)
            (round2 (((fs.map fun f => sentiment f.rating).count s : ℚ) * 100 /
              (fs.length : ℚ)))) := List.mergeSort_perm _ _
    rw [(hperm.map fun r => r.percentage).sum_eq, hperm.length_eq,
      List.length_map, List.map_map]
    have := groupPercent_sum_bound (fs.map fun f => sentiment f.rating) fs.length
      (List.length_map fs _).symm hkey
    simpa using this

theorem C9_percentage_sum_witness :
    (|((get_security_event_stats [SecurityEvent.mk 1 1 "intrusion"]).map
        fun r => r.percentage).sum - 100| ≤
      ((get_security_event_stats [SecurityEvent.mk 1 1 "intrusion"]).length : ℚ) *
        (1 / 100)) ∧
    (|((get_feedback_sentiment [Feedback.mk 1 1 5]).map
        fun r => r.percentage).sum - 100| ≤
      ((get_feedback_sentiment [Feedback.mk 1 1 5]).length : ℚ) * (1 / 100)) :=
  ⟨(C9_percentage_sum [SecurityEvent.mk 1 1 "intrusion"] [Feedback.mk 1 1 5]).1
      (by simp),
   (C9_percentage_sum [SecurityEvent.mk 1 1 "intrusion"] [Feedback.mk 1 1 5]).2
      (by simp)⟩

theorem C3_user_activity_rows_witness :
    ∃ r ∈ get_user_activity [User.mk 1 "a"] [House.mk 1 1 100]
      [Device.mk 1 1 "lamp" "lighting"] [],
      r.user_id = 1 ∧ r.usage_count = userUsageCount [House.mk 1 1 100]
        [Device.mk 1 1 "lamp" "lighting"] [] (User.mk 1 "a") :=
  (C3_user_activity_rows [User.mk 1 "a"] [House.mk 1 1 100]
    [Device.mk 1 1 "lamp" "lighting"] [] (User.mk 1 "a")
    (by decide) (by decide)).2 (by decide)

/-! Helper lemmas for the name-keyed grouping of
`get_concurrent_device_usage` (C10). -/

theorem count_dedup_pair (as : List (Int × Int)) (a : Int × Int) :
    as.dedup.count a = if a ∈ as then 1 else 0 := by
  induction as with
  | nil => simp
  | cons x xt ih =>
    by_cases hx : x ∈ xt
    · rw [List.dedup_cons_of_mem hx, ih]
      by_cases hax : a = x
      · simp [hax, hx]
      · simp [List.mem_cons, hax]
    · rw [List.dedup_cons_of_not_mem hx, List.count_cons, ih]
      by_cases hax : a = x
      · subst hax
        simp [hx]
      · have hb : (x == a) = false := beq_false_of_ne fun h => hax h.symm
        simp [hb, List.mem_cons, hax]

theorem count_filter_dedup_pair (p : (Int × Int) → Bool) (a : Int × Int)
    (as : List (Int × Int)) :
    ((as.dedup.filter p).count a) = if p a ∧ a ∈ as then 1 else 0 := by
  by_cases hp : p a
  · rw [List.count_filter hp, count_dedup_pair]
    simp [hp]
  · have hnm : a ∉ as.dedup.filter p := fun hmem => hp (List.of_mem_filter hmem)
    rw [List.count_eq_zero_of_not_mem hnm]
    simp [hp]

theorem sum_count_dedup_filter_pair (p : (Int × Int) → Bool)
    (l : List (Int × Int)) :
    ((l.dedup.filter p).map fun k => l.count k).sum = l.countP p := by
  induction l with
  | nil => simp
  | cons a as ih =>
    have hsplit : ∀ xs : List (Int × Int),
        (xs.map fun k => (a :: as).count k).sum =
        (xs.map fun k => as.count k).sum + xs.count a := by
      intro xs
      induction xs with
      | nil => simp
      | cons x xt ihx =>
        simp only [List.map_cons, List.sum_cons]
        rw [ihx, List.count_cons, List.count_cons]
        by_cases hax : a = x
        · subst hax
          simp only [beq_self_eq_true, if_true]
          omega
        · have h1 : (x == a) = false := beq_false_of_ne fun h => hax h.symm
          have h2 : (a == x) = false := beq_false_of_ne hax
          rw [h1, h2]
          omega
    rw [List.countP_cons]
    by_cases hmem : a ∈ as
    · rw [List.dedup_cons_of_mem hmem, hsplit, ih, count_filter_dedup_pair]
      by_cases hp : p a <;> simp [hp, hmem]
    · rw [List.dedup_cons_of_not_mem hmem, List.filter_cons]
      by_cases hp : p a
      · rw [if_pos hp]
        simp only [List.map_cons, List.sum_cons]
        rw [hsplit, ih, count_filter_dedup_pair, List.count_cons_self,
          List.count_eq_zero_of_not_mem hmem]
        have : ¬(p a ∧ a ∈ as) := fun hc => hmem hc.2
        rw [if_neg this, if_pos hp]
        omega
      · rw [if_neg hp, hsplit, ih, count_filter_dedup_pair]
        simp [hp]

theorem filter_id_eq (ds : List Device) (hnd : (ds.map Device.id).Nodup)
    (a : Int) :
    (ds.filter fun d => decide (d.id = a)) = [] ∨
    ∃ da, (ds.filter fun d => decide (d.id = a)) = [da] ∧
      nameOf ds a = da.name := by
  induction ds with
  | nil => exact Or.inl rfl
  | cons d rest ih =>
    rw [List.map_cons, List.nodup_cons] at hnd
    by_cases hda : d.id = a
    · refine Or.inr ⟨d, ?_, ?_⟩
      · rw [List.filter_cons_of_pos (by simpa using hda)]
        have : rest.filter (fun d => decide (d.id = a)) = [] := by
          refine List.filter_eq_nil_iff.2 fun x hx => ?_
          simp only [decide_eq_true_eq]
          intro hxa
          exact hnd.1 (hda ▸ hxa ▸ List.mem_map_of_mem Device.id hx)
        rw [this]
      · simp [nameOf, List.find?_cons_of_pos, hda]
    · rw [show (d :: rest).filter (fun d => decide (d.id = a)) =
          rest.filter fun d => decide (d.id = a) from
          List.filter_cons_of_neg (by simpa using hda),
        show nameOf (d :: rest) a = nameOf rest a from by
          simp [nameOf, List.find?_cons_of_neg, hda]]
      exact ih hnd.2

theorem nameKeyList_eq_map (ds : List Device) (us : List Usage)
    (hnd : (ds.map Device.id).Nodup) :
    nameKeyList ds us = (fullKeyList ds us).map fun k =>
      (nameOf ds k.1, nameOf ds k.2) := by
  have hinner : ∀ (a b : Int),
      ((ds.filter fun d => decide (d.id = a)).flatMap fun d1 =>
        (ds.filter fun d => decide (d.id = b)).map fun d2 => (d1.name, d2.name)) =
      (((ds.filter fun d => decide (d.id = a)).flatMap fun _ =>
        (ds.filter fun d => decide (d.id = b)).map fun _ => (a, b)).map
          fun k => (nameOf ds k.1, nameOf ds k.2)) := by
    intro a b
    rcases filter_id_eq ds hnd a with h1 | ⟨d1, h1, hn1⟩ <;>
      rcases filter_id_eq ds hnd b with h2 | ⟨d2, h2, hn2⟩ <;>
        simp [h1, h2]
    · rw [hn1, hn2]
      exact ⟨rfl, rfl⟩
  rw [nameKeyList, fullKeyList, List.map_flatMap]
  exact congrArg _ (funext fun p => hinner p.1.device_id p.2.device_id)

/-- C10: the later concurrent-usage variant keys rows by device name pair:
under unique device ids, the count recorded for a name pair is the sum of
the per-id-pair overlap counts over all id pairs carrying those names, and
every result row's count is the merged name-pair count. -/
theorem C10_name_pair_merging (ds : List Device) (us : List Usage)
    (hnd : (ds.map Device.id).Nodup) :
    (∀ n1 n2 : String,
      (nameKeyList ds us).count (n1, n2) =
        (((fullKeyList ds us).dedup.filter fun k =>
          decide (nameOf ds k.1 = n1) && decide (nameOf ds k.2 = n2)).map
            fun k => (fullKeyList ds us).count k).sum) ∧
    (∀ r ∈ get_concurrent_device_usage ds us,
      r.concurrent_count = (nameKeyList ds us).count (r.device1, r.device2)) := by
  constructor
  · intro n1 n2
    have hcnt : (nameKeyList ds us).count (n1, n2) =
        (fullKeyList ds us).countP fun k =>
          decide (nameOf ds k.1 = n1) && decide (nameOf ds k.2 = n2) := by
      rw [nameKeyList_eq_map ds us hnd, List.count, List.countP_map]
      refine List.countP_congr fun k hk => ?_
      simp [Prod.ext_iff]
    rw [hcnt, ← sum_count_dedup_filter_pair]
  · intro r hr
    have hm := List.mem_mergeSort.1 (List.take_subset 10 _ hr)
    have hg := (List.mem_filter.1 hm).1
    rcases List.mem_map.1 hg with ⟨k, hk, hre⟩
    rw [← hre]

theorem C10_name_pair_merging_witness :
    (nameKeyList [Device.mk 1 1 "lamp" "t", Device.mk 2 1 "tv" "t"]
      [Usage.mk 1 1 0 10, Usage.mk 2 2 5 15]).count ("lamp", "tv") =
    (((fullKeyList [Device.mk 1 1 "lamp" "t", Device.mk 2 1 "tv" "t"]
        [Usage.mk 1 1 0 10, Usage.mk 2 2 5 15]).dedup.filter fun k =>
      decide (nameOf [Device.mk 1 1 "lamp" "t", Device.mk 2 1 "tv" "t"] k.1 = "lamp") &&
      decide (nameOf [Device.mk 1 1 "lamp" "t", Device.mk 2 1 "tv" "t"] k.2 = "tv")).map
        fun k => (fullKeyList [Device.mk 1 1 "lamp" "t", Device.mk 2 1 "tv" "t"]
          [Usage.mk 1 1 0 10, Usage.mk 2 2 5 15]).count k).sum :=
  (C10_name_pair_merging [Device.mk 1 1 "lamp" "t", Device.mk 2 1 "tv" "t"]
    [Usage.mk 1 1 0 10, Usage.mk 2 2 5 15] (by decide)).1 "lamp" "tv"

end SmartHome
